import Mathlib

/-!
Verification of the retrieval-augmented query pipeline implemented in
`src/app/api/chat/route.ts` of the aime-knowledge-hub repository.

Strings are modelled as `List Char` (ASCII content; JavaScript
`toLowerCase`, `\d`, `\w` coincide with their ASCII meanings on the
inputs considered).  Numbers that the code stores as JavaScript floats
(similarity scores, confidences) are modelled as exact rationals: the
code only ever compares and copies them, so no float rounding is
observable.  External collaborators (Supabase, Airtable, the LLM and
embedding providers) are modelled as explicit environment records; a
database query is modelled as the corresponding pure filter over an
explicit corpus list, the way the query is written in the source.
-/

namespace AimeChat

abbrev Str := List Char

/-- Lower-case every character, matching JavaScript `toLowerCase` on ASCII. -/
def lowerStr (s : Str) : Str := s.map Char.toLower

/-- Does `s` start with `pat` (character-exact)? -/
def startsW : Str → Str → Bool
  | [], _ => true
  | _ :: _, [] => false
  | p :: ps, c :: cs => p == c && startsW ps cs

/-- Does `s` start with `pat`, comparing case-insensitively? -/
def startsWCI : Str → Str → Bool
  | [], _ => true
  | _ :: _, [] => false
  | p :: ps, c :: cs => (p.toLower == c.toLower) && startsWCI ps cs

/-- Substring test, matching JavaScript `String.prototype.includes`:
`pat` occurs at some position of `s`. -/
def hasSub : Str → Str → Bool
  | [], pat => startsW pat []
  | c :: r, pat => startsW pat (c :: r) || hasSub r pat

/-- JavaScript whitespace characters (ASCII fragment relevant here). -/
def isWS (c : Char) : Bool := c == ' ' || c == '\t' || c == '\n' || c == '\r'

/-- JavaScript `\w` word characters: `[A-Za-z0-9_]`. -/
def isWordChar (c : Char) : Bool := c.isAlpha || c.isDigit || c == '_'

/-- Drop the longest suffix whose characters satisfy `p`. -/
def dropTrailing (p : Char → Bool) (s : Str) : Str :=
  (s.reverse.dropWhile p).reverse

/-- JavaScript `String.prototype.trim` (ASCII whitespace). -/
def trimStr (s : Str) : Str := dropTrailing isWS (s.dropWhile isWS)

/-- The `replace(/^[^\w]*|[^\w]*$/g, '')` cleanup from the fact extractor:
strips the leading and trailing runs of non-word characters. -/
def stripNonWord (s : Str) : Str :=
  dropTrailing (fun c => !(isWordChar c)) (s.dropWhile (fun c => !(isWordChar c)))

/-- Keep the first occurrence of each element, in order: the semantics of
`Array.from(new Set(xs))` for JavaScript string arrays. -/
def dedupFirstAux [DecidableEq α] (seen : List α) : List α → List α
  | [] => []
  | x :: r => if x ∈ seen then dedupFirstAux seen r else x :: dedupFirstAux (x :: seen) r

def dedupFirst [DecidableEq α] (l : List α) : List α := dedupFirstAux [] l

/-- Join a list of strings with a separator, matching `Array.prototype.join`. -/
def joinSep (sep : Str) : List Str → Str
  | [] => []
  | [x] => x
  | x :: y :: r => x ++ sep ++ joinSep sep (y :: r)

/-! ## Concept Enhancer (`findQueryConcepts`, `findRelatedConcepts`,
`generateRelevantInsights`, `generateIntelligenceSummary`) -/

/-- Transcription of `findQueryConcepts` (route.ts lines 125-149): six
sequential keyword tests against the lower-cased query, each pushing a
fixed concept name. -/
def findQueryConcepts (query : Str) : List Str :=
  let ql := lowerStr query
  (if hasSub ql "hoodie".data || hasSub ql "economics".data then
      ["Hoodie Economics".data] else []) ++
  (if hasSub ql "relational".data then
      ["Community-Centered Economics".data] else []) ++
  (if hasSub ql "indigenous".data || hasSub ql "cultural".data then
      ["Indigenous Knowledge Integration".data] else []) ++
  (if hasSub ql "digital".data || hasSub ql "recognition".data then
      ["Digital Hoodies Recognition System".data] else []) ++
  (if hasSub ql "business".data || hasSub ql "cases".data then
      ["Relational Value Metrics".data] else []) ++
  (if hasSub ql "scale".data || hasSub ql "impact".data then
      ["Scaling Impact Models".data] else [])

/-- The `switch` table inside `findRelatedConcepts` (route.ts lines 154-172). -/
def relatedTable (concept : Str) : List Str :=
  if concept = "Hoodie Economics".data then
    ["Community-Centered Economics".data, "Relational Leadership".data]
  else if concept = "Indigenous Knowledge Integration".data then
    ["Cultural Sensitivity Framework".data, "Community Consultation".data]
  else if concept = "Digital Hoodies Recognition System".data then
    ["Relational Value Metrics".data, "Impact Assessment".data]
  else if concept = "Community-Centered Economics".data then
    ["Social Innovation".data, "Collective Value Creation".data]
  else if concept = "Scaling Impact Models".data then
    ["Community Replication".data, "Network Effects".data]
  else []

/-- Transcription of `findRelatedConcepts` (route.ts lines 151-175):
collect the adjacency-table rows of every matched concept, deduplicate
(`new Set`, first occurrence) and drop every concept already matched. -/
def findRelatedConcepts (queryConcepts : List Str) : List Str :=
  let related := (queryConcepts.map relatedTable).flatten
  (dedupFirst related).filter (fun c => !(decide (c ∈ queryConcepts)))

/-- Insight record emitted by `generateRelevantInsights`. -/
structure Insight where
  title : Str
  description : Str
  confidence : ℚ
  deriving DecidableEq, Repr

/-- Transcription of `generateRelevantInsights` (route.ts lines 177-205). -/
def generateRelevantInsights (queryConcepts : List Str) : List Insight :=
  (if queryConcepts.any (fun c => hasSub c "Economics".data || hasSub c "Relational".data) then
    [⟨"Cross-Domain Innovation Pattern".data,
      ("Relational economics concepts show strong connections to indigenous systems " ++
       "thinking, creating unique innovation opportunities").data, (85 : ℚ)/100⟩] else []) ++
  (if queryConcepts.any (fun c => hasSub c "Indigenous".data || hasSub c "Cultural".data) then
    [⟨"Cultural Integration Bridge".data,
      ("Indigenous knowledge systems provide foundational frameworks that enhance " ++
       "contemporary methodologies").data, (9 : ℚ)/10⟩] else []) ++
  (if queryConcepts.any (fun c => hasSub c "Digital".data || hasSub c "Recognition".data) then
    [⟨"Recognition System Evolution".data,
      ("Digital recognition systems are evolving beyond traditional metrics to capture " ++
       "relational value").data, (8 : ℚ)/10⟩] else [])

/-- Transcription of `generateIntelligenceSummary` (route.ts lines 207-232). -/
def generateIntelligenceSummary (queryConcepts relatedConcepts : List Str)
    (insights : List Insight) : Str :=
  let parts : List Str :=
    (if queryConcepts.length > 0 then
      [("Your query connects to ".data) ++ (Nat.repr queryConcepts.length).data ++
        (" key concept".data) ++ (if queryConcepts.length > 1 then "s".data else []) ++
        (": ".data) ++ joinSep ", ".data queryConcepts] else []) ++
    (if relatedConcepts.length > 0 then
      [("Related concepts to explore: ".data) ++
        joinSep ", ".data (relatedConcepts.take 3)] else []) ++
    (match insights with
     | [] => []
     | i :: _ => [("Key insight: ".data) ++ i.description])
  match parts with
  | [] => "This query shows potential for deeper concept exploration as the knowledge base expands.".data
  | _ => joinSep ". ".data parts

/-- The enhancement object built by `enhanceWithIntelligence` (route.ts 92-122). -/
structure Enhancement where
  intelligence_summary : Str
  related_concepts : List Str
  insights : List Insight
  concept_connections : Bool
  deriving DecidableEq, Repr

/-- Transcription of `enhanceWithIntelligence` (route.ts lines 92-122); the
function is pure apart from logging, so its `try`/`catch` never fires and it
always returns an enhancement object. -/
def enhanceWithIntelligence (message : Str) : Enhancement :=
  let queryConcepts := findQueryConcepts message
  let relatedConcepts := findRelatedConcepts queryConcepts
  let insights := generateRelevantInsights queryConcepts
  { intelligence_summary :=
      generateIntelligenceSummary queryConcepts relatedConcepts insights
    related_concepts := relatedConcepts
    insights := insights
    concept_connections := queryConcepts.length > 0 }

/-! ## Pattern matchers for the fact extractor

Each JavaScript regular expression used by `extractFactsFromResponse` is
transcribed as an anchored matcher `M`: given the remaining input it
returns `some k` when the pattern matches a k-character span starting
there, `none` otherwise.  The patterns involved are deterministic in the
sense that backtracking never changes the outcome (each greedy
sub-pattern is followed by a token its own character class excludes), so
the longest-first semantics of the JavaScript engine reduces to the
straightforward greedy matchers below; the spots relying on this are
noted inline. -/

/-- Anchored matcher: number of characters consumed on success. -/
abbrev M := Str → Option Nat

/-- Sequencing of anchored matchers. -/
def mSeq (a b : M) : M := fun s =>
  match a s with
  | none => none
  | some k =>
    match b (s.drop k) with
    | none => none
    | some j => some (k + j)

/-- Case-sensitive literal. -/
def mLit (pat : Str) : M := fun s => if startsW pat s then some pat.length else none

/-- Case-insensitive literal (for the `/i` regexes). -/
def mLitCI (pat : Str) : M := fun s => if startsWCI pat s then some pat.length else none

/-- Greedy `p*`: always succeeds, consuming the maximal run.  Faithful when
the following token cannot match a `p` character. -/
def mMany (p : Char → Bool) : M := fun s => some (s.takeWhile p).length

/-- Greedy `p+`. -/
def mPlus (p : Char → Bool) : M := fun s =>
  let k := (s.takeWhile p).length
  if k = 0 then none else some k

/-- Greedy `a?`.  Faithful when a successful `a` cannot make the
continuation fail where the empty alternative would succeed. -/
def mOpt (a : M) : M := fun s =>
  match a s with
  | some k => some k
  | none => some 0

/-- Ordered alternation of literals (case-insensitive), as in
`(?:students?|people|...)`: first alternative that matches wins. -/
def mAltCI (pats : List Str) : M := fun s =>
  match pats.find? (fun p => startsWCI p s) with
  | some p => some p.length
  | none => none

/-- Greedy bounded repetition `p{lo,hi}`. -/
def mBounded (p : Char → Bool) (lo hi : Nat) : M := fun s =>
  let k := min hi (s.takeWhile p).length
  if lo ≤ k then some k else none

/-- Characters matched by the `[^.]` class. -/
def nonDot (c : Char) : Bool := c != '.'

/-- Greedy `(,\d{3})*` of the count pattern: number of characters consumed
by the maximal run of comma-plus-three-digit groups.  (If the overall
pattern fails after n groups it also fails after fewer, because a group
boundary can satisfy neither `(\.\d+)?` nor `\s+`, so the greedy run is
faithful.) -/
def commaGroups : Str → Nat
  | ',' :: a :: b :: c :: rest =>
    if a.isDigit && b.isDigit && c.isDigit then 4 + commaGroups rest else 0
  | _ => 0

/-- `(?:\.\d+)?` — optional decimal fraction. -/
def mFrac : M := mOpt (mSeq (mLit ".".data) (mPlus Char.isDigit))

/-- `/(\d+(?:\.\d+)?%[^.]*)/g` — percentage claims. -/
def pStat1 : M :=
  mSeq (mPlus Char.isDigit) (mSeq mFrac (mSeq (mLit "%".data) (mMany nonDot)))

/-- Noun alternatives of the count pattern, longest variant first so the
greedy `s?` of the source regex is respected.  Note the source spells
`universities?`, whose `?` binds only to the final `s`. -/
def statNouns : List Str :=
  ["students".data, "student".data, "people".data, "participants".data,
   "participant".data, "universities".data, "universitie".data,
   "programs".data, "program".data]

/-- `/(\d+(?:,\d{3})*(?:\.\d+)?\s+(?:students?|people|participants?|universities?|programs?)[^.]*)/gi`. -/
def pStat2 : M :=
  mSeq (mPlus Char.isDigit)
    (mSeq (fun s => some (commaGroups s))
      (mSeq mFrac (mSeq (mPlus isWS) (mSeq (mAltCI statNouns) (mMany nonDot)))))

/-- `/(over \d+[^.]*)/gi`. -/
def pStat3 : M := mSeq (mLitCI "over ".data) (mSeq (mPlus Char.isDigit) (mMany nonDot))

/-- `/(more than \d+[^.]*)/gi`. -/
def pStat4 : M := mSeq (mLitCI "more than ".data) (mSeq (mPlus Char.isDigit) (mMany nonDot))

/-- `/(up to \d+[^.]*)/gi`. -/
def pStat5 : M := mSeq (mLitCI "up to ".data) (mSeq (mPlus Char.isDigit) (mMany nonDot))

/-- `/(AIME [^.]{20,150})/gi`. -/
def pAime1 : M := mSeq (mLitCI "AIME ".data) (mBounded nonDot 20 150)

/-- `/(IMAGI-NATION [^.]{20,150})/gi`. -/
def pAime2 : M := mSeq (mLitCI "IMAGI-NATION ".data) (mBounded nonDot 20 150)

/-- Matcher scheme of `/(visa[^.]*(?:alt1|alt2|...)[^.]*)/gi`: after the
keyword the two greedy `[^.]*` runs confine the whole match to the
maximal dot-free run, and the match succeeds exactly when one of the
alternatives occurs somewhere inside that run (the engine backtracks the
first `[^.]*` until an alternative fits); either way the full run is
consumed. -/
def mKeyAlts (key : Str) (alts : List Str) : M := fun s =>
  match mLitCI key s with
  | none => none
  | some k =>
    let run := (s.drop k).takeWhile nonDot
    if alts.any (fun a => hasSub (lowerStr run) a) then some (k + run.length)
    else none

/-- `/(visa[^.]*(?:membership|participation|role|way to)[^.]*)/gi`. -/
def pConcept1 : M :=
  mKeyAlts "visa".data ["membership".data, "participation".data, "role".data, "way to".data]

/-- `/(mentor[^.]*(?:matching|program|system)[^.]*)/gi`. -/
def pConcept2 : M :=
  mKeyAlts "mentor".data ["matching".data, "program".data, "system".data]

/-- `/(appears to be[^.]{20,150})/gi`. -/
def pConcept3 : M := mSeq (mLitCI "appears to be".data) (mBounded nonDot 20 150)

/-- `/(represents[^.]{20,150})/gi`. -/
def pConcept4 : M := mSeq (mLitCI "represents".data) (mBounded nonDot 20 150)

/-- `/(in order to[^.]{20,150})/gi`. -/
def pConcept5 : M := mSeq (mLitCI "in order to".data) (mBounded nonDot 20 150)

/-- Fuelled scanner: each step consumes at least one character, so fuel
equal to the input length makes the fuel bound unreachable. -/
def scanAllF (m : M) : Nat → Str → List Str
  | _, [] => []
  | 0, _ => []
  | fuel + 1, c :: rest =>
    match m (c :: rest) with
    | some k => ((c :: rest).take k) :: scanAllF m fuel ((c :: rest).drop (max k 1))
    | none => scanAllF m fuel rest

/-- Global scan, matching `String.prototype.match` with a `/g` regex: the
list of non-overlapping leftmost matches, resuming after each match. -/
def scanAll (m : M) (s : Str) : List Str := scanAllF m s.length s

/-! ## Fact Extractor (`extractFactsFromResponse`, `extractTagsFromContent`) -/

/-- Extractable fact record pushed by `extractFactsFromResponse`. -/
structure Fact where
  content : Str
  confidence : ℚ
  source_context : Str
  suggested_tags : List Str
  deriving DecidableEq, Repr

/-- Transcription of `extractTagsFromContent` (route.ts lines 551-571):
query-based tags, then content-based tags, deduplicated keeping first
occurrences and capped at 4. -/
def extractTagsFromContent (content query : Str) : List Str :=
  let ql := lowerStr query
  let cl := lowerStr content
  let tags :=
    (if hasSub ql "impact".data then ["impact".data] else []) ++
    (if hasSub ql "education".data then ["education".data] else []) ++
    (if hasSub ql "university".data then ["university".data] else []) ++
    (if hasSub ql "student".data then ["students".data] else []) ++
    (if hasSub cl "university".data then ["university".data] else []) ++
    (if hasSub cl "student".data then ["students".data] else []) ++
    (if hasSub cl "program".data then ["programs".data] else []) ++
    (if hasSub cl "completion".data then ["completion-rates".data] else []) ++
    (if hasSub cl "million".data then ["scale".data] else []) ++
    (if hasSub cl "%".data then ["statistics".data] else []) ++
    (if hasSub cl "indigenous".data then ["indigenous".data] else []) ++
    (if hasSub cl "mentor".data then ["mentoring".data] else [])
  (dedupFirst tags).take 4

/-- Facts from the five statistical patterns (route.ts lines 440-465):
each raw match is trimmed, stripped of edge non-word characters, and kept
when its length is strictly between 10 and 200. -/
def statFacts (response query : Str) : List Fact :=
  (([pStat1, pStat2, pStat3, pStat4, pStat5].map (fun p =>
    (scanAll p response).filterMap (fun m =>
      let cleanMatch := stripNonWord (trimStr m)
      if cleanMatch.length > 10 && cleanMatch.length < 200 then
        some { content := cleanMatch
               confidence := (8 : ℚ)/10
               source_context :=
                 ("Statistical information from: \"".data) ++ query ++ ("\"".data)
               suggested_tags := extractTagsFromContent cleanMatch query }
      else none))).flatten)

/-- Facts from the two AIME/IMAGI-NATION patterns (route.ts lines 468-489):
trimmed matches kept when their length is strictly between 20 and 200. -/
def aimeFacts (response query : Str) : List Fact :=
  (([pAime1, pAime2].map (fun p =>
    (scanAll p response).filterMap (fun m =>
      let cleanMatch := trimStr m
      if cleanMatch.length > 20 && cleanMatch.length < 200 then
        some { content := cleanMatch
               confidence := (7 : ℚ)/10
               source_context :=
                 ("AIME program information from: \"".data) ++ query ++ ("\"".data)
               suggested_tags := extractTagsFromContent cleanMatch query }
      else none))).flatten)

/-- Facts from the five conceptual patterns (route.ts lines 492-516):
trimmed matches kept when their length is strictly between 25 and 200. -/
def conceptFacts (response query : Str) : List Fact :=
  (([pConcept1, pConcept2, pConcept3, pConcept4, pConcept5].map (fun p =>
    (scanAll p response).filterMap (fun m =>
      let cleanMatch := trimStr m
      if cleanMatch.length > 25 && cleanMatch.length < 200 then
        some { content := cleanMatch
               confidence := (6 : ℚ)/10
               source_context :=
                 ("Concept definition from: \"".data) ++ query ++ ("\"".data)
               suggested_tags := extractTagsFromContent cleanMatch query }
      else none))).flatten)

/-- Split on runs of sentence terminators, per `split(/[.!?]+/)`: empty
leading and trailing pieces are produced exactly as in JavaScript. -/
def isSentSep (c : Char) : Bool := c == '.' || c == '!' || c == '?'

def splitSentF : Nat → Str → Str → List Str
  | _, cur, [] => [cur.reverse]
  | 0, cur, _ => [cur.reverse]
  | fuel + 1, cur, c :: rest =>
    if isSentSep c then
      cur.reverse :: splitSentF fuel [] (rest.dropWhile isSentSep)
    else splitSentF fuel (c :: cur) rest

def splitSent (s : Str) : List Str := splitSentF s.length [] s

/-- Key terms of the sentence scan (route.ts line 521). -/
def keyTerms : List Str :=
  ["visa".data, "aime".data, "imagi-nation".data, "mentor".data,
   "program".data, "system".data, "movement".data, "participation".data]

/-- Definitional markers of `/(?:is|are|seems to be|appears to be|represents|means)/i`. -/
def defTerms : List Str :=
  ["is".data, "are".data, "seems to be".data, "appears to be".data,
   "represents".data, "means".data]

/-- Facts from whole key-term sentences (route.ts lines 519-535). -/
def sentenceFacts (response query : Str) : List Fact :=
  ((splitSent response).filter (fun s => (trimStr s).length > 30)).filterMap
    (fun sentence =>
      let ls := lowerStr sentence
      let hasKeyTerm := keyTerms.any (fun t => hasSub ls t)
      let hasDefinition := defTerms.any (fun t => hasSub ls t)
      if hasKeyTerm && hasDefinition && (trimStr sentence).length > 30 &&
          (trimStr sentence).length < 200 then
        some { content := trimStr sentence
               confidence := (6 : ℚ)/10
               source_context := ("Definition from: \"".data) ++ query ++ ("\"".data)
               suggested_tags := extractTagsFromContent (trimStr sentence) query }
      else none)

/-- Deduplication by exact content keeping first occurrences, per
`facts.filter((fact, index, self) => index === self.findIndex(...))`. -/
def dedupFactsAux (seen : List Str) : List Fact → List Fact
  | [] => []
  | f :: r =>
    if f.content ∈ seen then dedupFactsAux seen r
    else f :: dedupFactsAux (f.content :: seen) r

def dedupFacts (l : List Fact) : List Fact := dedupFactsAux [] l

/-- Transcription of `extractFactsFromResponse` (route.ts lines 432-549).
The `chunks` argument of the source function is accepted and unused,
exactly as in the source. -/
def extractFactsFromResponse (response query : Str) : List Fact :=
  let facts :=
    statFacts response query ++ aimeFacts response query ++
    conceptFacts response query ++ sentenceFacts response query
  (dedupFacts facts).take 3

/-! ## Passage candidates, the merger and `searchSimilarChunks`

A row of the `document_chunks` table / a candidate produced by an
adapter.  The `match_type` field the code attaches to theme and direct
matches is never read downstream, so it is not modelled.  `similarity`
is `none` for rows fetched without a similarity score, matching the
absence of the field in JavaScript (`chunk.similarity || 0` then reads
it as 0). -/

structure Chunk where
  chunk_id : Str
  document_id : Str
  document_title : Str
  chunk_index : Nat
  content : Str
  similarity : Option ℚ
  deriving DecidableEq, Repr

/-- The score used by the merger's comparator: `chunk.similarity || 0`. -/
def simVal (c : Chunk) : ℚ := c.similarity.getD 0

/-- Stable insertion (descending by `simVal`): a new element goes after
every element with a score at least as large, which is exactly the
stable descending order produced by `allResults.sort((a, b) =>
(b.similarity || 0) - (a.similarity || 0))` (Array.prototype.sort is
stable in the runtimes targeted by this Next.js code). -/
def insDesc (c : Chunk) : List Chunk → List Chunk
  | [] => [c]
  | d :: rest => if simVal d < simVal c then c :: d :: rest else d :: insDesc c rest

def sortDesc (l : List Chunk) : List Chunk := l.foldl (fun s c => insDesc c s) []

/-- Stable insertion ascending by `chunk_index`, modelling the
`order('chunk_index')` clause of the document-scoped query. -/
def insAsc (c : Chunk) : List Chunk → List Chunk
  | [] => [c]
  | d :: rest => if c.chunk_index < d.chunk_index then c :: d :: rest else d :: insAsc c rest

def sortByIdx (l : List Chunk) : List Chunk := l.foldl (fun s c => insAsc c s) []

/-- The default on `documentCounts.get(docTitle) || 0`. -/
def lookupCount : List (Str × Nat) → Str → Nat
  | [], _ => 0
  | (k, v) :: r, t => if k = t then v else lookupCount r t

/-- `documentCounts.set(docTitle, v)`: update in place or append. -/
def setCount : List (Str × Nat) → Str → Nat → List (Str × Nat)
  | [], t, v => [(t, v)]
  | (k, w) :: r, t, v => if k = t then (t, v) :: r else (k, w) :: setCount r t v

/-- The deduplication and diversity loop of `searchSimilarChunks`
(route.ts lines 388-414): admit a candidate when its chunk id is unseen
and its document title is below the per-document cap of 2; stop as soon
as `limit` results are admitted.  `seen` and `counts` are only updated
on admission, exactly as in the source. -/
def maxPerDocument : Nat := 2

def admitLoop (limit : Nat) : List Chunk → List Str → List (Str × Nat) →
    List Chunk → List Chunk
  | [], _, _, acc => acc.reverse
  | c :: rest, seen, counts, acc =>
    if c.chunk_id ∈ seen then admitLoop limit rest seen counts acc
    else if lookupCount counts c.document_title < maxPerDocument then
      if limit ≤ (c :: acc).length then (c :: acc).reverse
      else admitLoop limit rest (c.chunk_id :: seen)
        (setCount counts c.document_title (lookupCount counts c.document_title + 1))
        (c :: acc)
    else admitLoop limit rest seen counts acc

/-- Sort by score then run the admission loop: steps 4 of
`searchSimilarChunks`, applied to the concatenated adapter outputs. -/
def mergeResults (limit : Nat) (allResults : List Chunk) : List Chunk :=
  admitLoop limit (sortDesc allResults) [] [] []

/-- Airtable document record (the fields the theme filter reads). -/
structure DocRec where
  id : Str
  title : Str
  themeIds : List Str
  deriving DecidableEq, Repr

/-- Airtable theme record. -/
structure ThemeRec where
  id : Str
  name : Str
  deriving DecidableEq, Repr

/-- Environment of one `searchSimilarChunks` call: the chunk corpus (rows
of `document_chunks` in table order) and the outcomes of the external
calls the function makes. -/
structure SearchEnv where
  corpus : List Chunk
  /-- `docError` of the document-scoped query. -/
  docErr : Bool
  /-- Result of the `match_chunks` RPC: `none` models `vectorError`. -/
  vectorRes : Option (List Chunk)
  /-- Airtable documents and themes; `none` models missing API keys, a
  non-ok response, or a thrown fetch error. -/
  airtable : Option (List DocRec × List ThemeRec)
  /-- `themeError` of the theme-filtered chunk query. -/
  themeErr : Bool
  /-- `hoodieError` of the direct-match query. -/
  hoodieErr : Bool
  /-- A failed fallback query (`fallbackData` null). -/
  fallbackErr : Bool

def lookupTheme : List (Str × Str) → Str → Option Str
  | [], _ => none
  | (k, v) :: r, t => if k = t then some v else lookupTheme r t

/-- Document-scoped adapter (route.ts lines 241-263): all chunks of the
document in `chunk_index` order, truncated with `slice(0, limit)`. -/
def docAdapter (env : SearchEnv) (docId : Str) (limit : Nat) : List Chunk :=
  (sortByIdx (env.corpus.filter (fun c => c.document_id = docId))).take limit

/-- Theme-filtered adapter (route.ts lines 267-333): resolve theme names
through Airtable, then take up to 15 chunks of the matching documents at
similarity 0.8.  Every failure leg contributes nothing. -/
def themeAdapter (env : SearchEnv) (selectedThemes : List Str) : List Chunk :=
  match env.airtable with
  | none => []
  | some (docs, themes) =>
    let themeMap := themes.map (fun t => (t.id, t.name))
    let matchingDocuments := docs.filter (fun d =>
      let docThemeNames := d.themeIds.filterMap (lookupTheme themeMap)
      selectedThemes.any (fun t => decide (t ∈ docThemeNames)))
    if matchingDocuments.length > 0 then
      if env.themeErr then []
      else
        let ids := matchingDocuments.map DocRec.id
        ((env.corpus.filter (fun c => decide (c.document_id ∈ ids))).take 15).map
          (fun c => { c with similarity := some ((8 : ℚ)/10) })
    else []

/-- Vector-similarity adapter (route.ts lines 336-347): the `match_chunks`
RPC result, or nothing on error. -/
def vectorAdapter (env : SearchEnv) : List Chunk :=
  match env.vectorRes with
  | none => []
  | some l => l

/-- Direct-match adapter (route.ts lines 351-369): when the query
mentions both "hoodie" and "economics", two chunks of the document
titled "Hoodie Economics" at similarity 0.95. -/
def directAdapter (env : SearchEnv) (query : Str) : List Chunk :=
  if hasSub (lowerStr query) "hoodie".data && hasSub (lowerStr query) "economics".data then
    if env.hoodieErr then []
    else ((env.corpus.filter (fun c => c.document_title = "Hoodie Economics".data)).take 2).map
      (fun c => { c with similarity := some ((95 : ℚ)/100) })
  else []

/-- Fallback adapter (route.ts lines 372-383): the first five corpus
rows, or nothing when the query returns null. -/
def fallbackAdapter (env : SearchEnv) : List Chunk :=
  if env.fallbackErr then [] else env.corpus.take 5

/-- The `allResults` accumulated before the fallback check in the
multi-document arm: the theme branch or the vector branch, then the
direct-match booster. -/
def baseResults (env : SearchEnv) (query : Str) (selectedThemes : List Str) : List Chunk :=
  (if selectedThemes.length > 0 then themeAdapter env selectedThemes
   else vectorAdapter env) ++ directAdapter env query

/-- The `allResults` of the multi-document arm after the fallback step:
the fallback sample is appended only when nothing was gathered. -/
def gatherMulti (env : SearchEnv) (query : Str) (selectedThemes : List Str) : List Chunk :=
  if (baseResults env query selectedThemes).length = 0 then
    baseResults env query selectedThemes ++ fallbackAdapter env
  else baseResults env query selectedThemes

/-- Transcription of `searchSimilarChunks` (route.ts lines 234-430).  With
a `documentId` the document-scoped query runs (returning `[]` outright on
`docError`); otherwise the theme branch or the vector branch runs, then
the direct-match booster, then — only in this multi-document arm and only
when nothing was gathered — the fallback sample.  Either arm ends in the
dedup-and-diversity merge. -/
def searchSimilarChunks (env : SearchEnv) (limit : Nat) (query : Str)
    (documentId : Option Str) (selectedThemes : List Str) : List Chunk :=
  match documentId with
  | some docId =>
    if env.docErr then []
    else mergeResults limit (docAdapter env docId limit)
  | none => mergeResults limit (gatherMulti env query selectedThemes)

/-! ## Answer Generator (`generateResponse`) and the `POST` handler -/

/-- Citation record (route.ts lines 25-30). -/
structure Citation where
  text : Str
  source_url : Str
  document_title : Str
  chunk_id : Str
  deriving DecidableEq, Repr

/-- One chat history message. -/
structure ChatMessage where
  role : Str
  content : Str
  deriving DecidableEq, Repr

/-- Which external LLM provider a `generateResponse` run invokes. -/
inductive Provider where
  | anthropicP
  | openaiP
  deriving DecidableEq, Repr

/-- Environment of a `generateResponse` call: whether
`process.env.ANTHROPIC_API_KEY` is set, the text each provider would
return, and whether the invoked provider call throws. -/
structure GenEnv where
  anthropicKey : Bool
  anthropicText : Str
  openaiText : Str
  providerFails : Bool

/-- How one chunk is rendered into the prompt context block. -/
def renderChunk (c : Chunk) : Str :=
  ("Document: ".data) ++ c.document_title ++ ("\nContent: ".data) ++ c.content

/-- The optional intelligence block appended to the system prompt. -/
def enhancementBlock : Option Enhancement → Str
  | none => []
  | some e =>
    ("\n\n🧠 INTELLIGENCE ENHANCEMENT:\n".data) ++ e.intelligence_summary ++
    ("\n\nRelated concepts to consider: ".data) ++ joinSep ", ".data e.related_concepts ++
    ("\n\nKey insights: ".data) ++
    joinSep "; ".data (e.insights.map Insight.description)

/-- Leading text of the system prompt (route.ts lines 585-588). -/
def promptHeader : Str :=
  ("You are an AI assistant for the AIME Knowledge Hub. You help users find " ++
   "information from research documents and answer questions based on the " ++
   "knowledge base.\n\nContext from relevant documents:\n").data

/-- Instruction block appended to the system prompt (route.ts 602-613). -/
def promptInstr : Str :=
  (("\n\nInstructions:\n" ++
    "1. Answer the user\x27s question based on the provided context\n" ++
    "2. If intelligence enhancement is provided, incorporate those insights naturally\n" ++
    "3. If the context doesn\x27t contain enough information, say so clearly\n" ++
    "4. Always cite your sources by referencing the document titles\n" ++
    "5. Be concise but comprehensive\n" ++
    "6. Use a professional but friendly tone\n" ++
    "7. If related concepts are suggested, mention them as \"You might also be " ++
    "interested in exploring...\"\n\n" ++
    "If no relevant context is provided, explain that you don\x27t have specific " ++
    "information about that topic in the current knowledge base.").data)

/-- The system prompt assembled by `generateResponse` (route.ts 584-613). -/
def buildSystemPrompt (chunks : List Chunk) (enh : Option Enhancement) : Str :=
  promptHeader ++ joinSep "\n\n".data (chunks.map renderChunk) ++
  enhancementBlock enh ++ promptInstr

/-- The citation projection of one chunk (route.ts lines 652-657). -/
def mkCitation (c : Chunk) : Citation :=
  { text := c.content
    source_url := ("/documents/".data) ++ c.document_id
    document_title := c.document_title
    chunk_id := c.chunk_id }

/-- Result of a successful `generateResponse` run.  `promptSent`,
`historySent` and `provider` record what was handed to the external LLM
call, which the JavaScript performs as a side effect. -/
structure GenResult where
  content : Str
  citations : List Citation
  extractable_facts : List Fact
  model_used : Str
  intelligence_enhancement : Option Enhancement
  promptSent : Str
  historySent : List ChatMessage
  provider : Provider
  deriving Repr

/-- Transcription of `generateResponse` (route.ts lines 573-673).  The
Anthropic branch is taken only when the caller asked for `anthropic` and
the API key is configured; otherwise OpenAI is called.  A thrown provider
error is re-thrown as `Failed to generate response`. -/
def generateResponse (query : Str) (chunks : List Chunk) (model : Str)
    (history : List ChatMessage) (enh : Option Enhancement) (env : GenEnv) :
    Except Str GenResult :=
  let systemPrompt := buildSystemPrompt chunks enh
  if env.providerFails then .error "Failed to generate response".data
  else
    let provider :=
      if model = "anthropic".data ∧ env.anthropicKey then Provider.anthropicP
      else Provider.openaiP
    let content :=
      match provider with
      | Provider.anthropicP => env.anthropicText
      | Provider.openaiP => env.openaiText
    .ok
      { content := content
        citations := chunks.map mkCitation
        extractable_facts := extractFactsFromResponse content query
        model_used := model
        intelligence_enhancement := enh
        promptSent := systemPrompt
        historySent := history.drop (history.length - 4)
        provider := provider }

/-- Request body of the `POST` handler (route.ts line 34 defaults). -/
structure PostReq where
  message : Str
  model : Str
  history : List ChatMessage
  enable_intelligence : Bool
  document_id : Option Str
  selectedThemes : List Str

/-- Environment of a whole `POST` request. -/
structure PostEnv where
  /-- Whether the embedding provider call succeeds. -/
  embedOk : Bool
  searchEnv : SearchEnv
  genEnv : GenEnv

/-- Observable outcome of `POST`: a JSON payload or an error payload with
its HTTP status. -/
inductive PostOut where
  | ok (r : GenResult)
  | err (message : Str) (status : Nat)

def PostOut.isErr : PostOut → Bool
  | .ok _ => false
  | .err _ _ => true

def PostOut.errPayload : PostOut → Option (Str × Nat)
  | .ok _ => none
  | .err m s => some (m, s)

/-- Transcription of the `POST` handler (route.ts lines 32-76).  The
second component records whether `searchSimilarChunks` — and with it any
candidate source adapter — was ever invoked.  A missing message returns
400; a thrown `generateEmbedding` or `generateResponse` error is caught
by the handler's `catch` and surfaces as the generic 500
`Internal server error`. -/
def POST (req : PostReq) (env : PostEnv) : PostOut × Bool :=
  if req.message = [] then (.err "Message is required".data 400, false)
  else if ¬env.embedOk then (.err "Internal server error".data 500, false)
  else
    let chunks := searchSimilarChunks env.searchEnv 5 req.message req.document_id
      req.selectedThemes
    let enh := if req.enable_intelligence then some (enhanceWithIntelligence req.message)
      else none
    match generateResponse req.message chunks req.model req.history enh env.genEnv with
    | .error _ => (.err "Internal server error".data 500, true)
    | .ok r => (.ok r, true)

/-! ## Auxiliary observations and concrete fixtures -/

/-- Occurrences of a document title among a list of candidates. -/
def countTitle : List Chunk → Str → Nat
  | [], _ => 0
  | c :: r, t => (if c.document_title = t then 1 else 0) + countTitle r t

/-- Substring containment as a proposition: `n` occurs inside `s`. -/
def Contained (n s : Str) : Prop := ∃ p q, s = p ++ n ++ q

/-- A chunk of the seven-chunk fixture document `doc_42`. -/
def dc (i : Nat) : Chunk :=
  { chunk_id := 'c' :: (Nat.repr i).data
    document_id := "doc_42".data
    document_title := "Doc FortyTwo".data
    chunk_index := i
    content := "chunk text".data
    similarity := none }

/-- Search environment for the document-scoped scenario: `doc_42` has
exactly seven chunks, and every external call behaves normally. -/
def envDoc42 : SearchEnv :=
  { corpus := [dc 0, dc 1, dc 2, dc 3, dc 4, dc 5, dc 6]
    docErr := false
    vectorRes := none
    airtable := none
    themeErr := false
    hoodieErr := false
    fallbackErr := false }

/-- Search environment whose corpus has one chunk — of a document other
than `doc_42` — and whose external calls behave normally. -/
def envOther : SearchEnv :=
  { corpus := [{ chunk_id := "z1".data, document_id := "doc_9".data,
                 document_title := "Other".data, chunk_index := 0,
                 content := "text".data, similarity := none }]
    docErr := false
    vectorRes := some []
    airtable := none
    themeErr := false
    hoodieErr := false
    fallbackErr := false }

/-- A candidate of document `Doc A` for the diversity-cap scenario. -/
def cA (i : Nat) : Chunk :=
  { chunk_id := 'a' :: (Nat.repr i).data, document_id := "dA".data
    document_title := "Doc A".data, chunk_index := i
    content := "a text".data, similarity := none }

def cB1 : Chunk :=
  { chunk_id := "b1".data, document_id := "dB".data
    document_title := "Doc B".data, chunk_index := 0
    content := "b text".data, similarity := none }

def cC1 : Chunk :=
  { chunk_id := "c1".data, document_id := "dC".data
    document_title := "Doc C".data, chunk_index := 0
    content := "c text".data, similarity := none }

/-- Candidate pool with five usable items over three documents: document
`Doc A` holds three of them, so a result set of five exists only by
letting `Doc A` exceed the cap of two. -/
def poolCap : List Chunk := [cA 1, cA 2, cA 3, cB1, cC1]

/-- A well-formed request fixture. -/
def reqHi : PostReq :=
  { message := "hi there".data
    model := "openai".data
    history := []
    enable_intelligence := false
    document_id := none
    selectedThemes := [] }

/-- Generation environment with no Anthropic key and working providers. -/
def genEnvOk : GenEnv :=
  { anthropicKey := false
    anthropicText := "anthropic answer".data
    openaiText := "openai answer".data
    providerFails := false }

/-- Generation environment whose provider call throws. -/
def genEnvFail : GenEnv :=
  { genEnvOk with providerFails := true }

/-- Request environment whose embedding call throws. -/
def envEmbedFail : PostEnv :=
  { embedOk := false, searchEnv := envOther, genEnv := genEnvOk }

/-- Request environment where embedding succeeds but generation throws. -/
def envGenFail : PostEnv :=
  { embedOk := true, searchEnv := envOther, genEnv := genEnvFail }

/-- Query of the fact-extraction scenario. -/
def q8 : Str := "What percentage of participants completed university?".data

/-- The statistical span of the fact-extraction scenario. -/
def statSpan : Str := "34% increase in completion rates".data

/-- The part of the span after the leading `34%`. -/
def spanRest : Str := " increase in completion rates".data

/-- A short answer containing the statistical span. -/
def a8 : Str := "Studies show a 34% increase in completion rates for mentees.".data

/-- An answer containing the statistical span inside a dot-free run of
more than 200 characters: the only statistical match is then discarded
by the `< 200` length filter. -/
def b8 : Str := "34% increase in completion rates".data ++ List.replicate 200 'x'

/-! ## Helper lemmas -/

theorem countTitle_append (l m : List Chunk) (t : Str) :
    countTitle (l ++ m) t = countTitle l t + countTitle m t := by
  induction l with
  | nil => simp [countTitle]
  | cons c r ih => simp [countTitle, ih]; omega

theorem countTitle_reverse (l : List Chunk) (t : Str) :
    countTitle l.reverse t = countTitle l t := by
  induction l with
  | nil => rfl
  | cons c r ih =>
    simp [List.reverse_cons, countTitle_append, countTitle, ih]
    omega

theorem countTitle_cons_self (c : Chunk) (r : List Chunk) :
    countTitle (c :: r) c.document_title = countTitle r c.document_title + 1 := by
  simp [countTitle, Nat.add_comm]

theorem countTitle_cons_ne (c : Chunk) (r : List Chunk) (t : Str)
    (h : ¬ (c.document_title = t)) : countTitle (c :: r) t = countTitle r t := by
  simp [countTitle, h]

theorem lookupCount_setCount_self (m : List (Str × Nat)) (t : Str) (v : Nat) :
    lookupCount (setCount m t v) t = v := by
  induction m with
  | nil => simp [setCount, lookupCount]
  | cons p r ih =>
    by_cases h : p.1 = t
    · simp [setCount, h, lookupCount]
    · simp [setCount, h, lookupCount, ih]

theorem lookupCount_setCount_ne (m : List (Str × Nat)) (t t' : Str) (v : Nat)
    (h : t' ≠ t) : lookupCount (setCount m t v) t' = lookupCount m t' := by
  induction m with
  | nil => simp [setCount, lookupCount, Ne.symm h]
  | cons p r ih =>
    by_cases hp : p.1 = t
    · simp [setCount, hp, lookupCount, Ne.symm h]
    · simp only [setCount, hp, if_false, lookupCount]
      by_cases hq : p.1 = t'
      · simp [hq]
      · simp [hq, ih]

/-- Invariant proof of the admission loop: whenever the running counts
agree with the accumulator and respect the cap, every document title
appears at most `maxPerDocument` times in the final result. -/
theorem admitLoop_title_le (limit : Nat) (pool : List Chunk) :
    ∀ (seen : List Str) (counts : List (Str × Nat)) (acc : List Chunk),
    (∀ t, countTitle acc t = lookupCount counts t) →
    (∀ t, lookupCount counts t ≤ maxPerDocument) →
    ∀ t, countTitle (admitLoop limit pool seen counts acc) t ≤ maxPerDocument := by
  induction pool with
  | nil =>
    intro seen counts acc H1 H2 t
    simp only [admitLoop, countTitle_reverse]
    rw [H1]; exact H2 t
  | cons c rest ih =>
    intro seen counts acc H1 H2 t
    simp only [admitLoop]
    split
    · exact ih seen counts acc H1 H2 t
    · split
      · rename_i hseen hlt
        have hlt2 : lookupCount counts c.document_title < 2 := hlt
        split
        · rw [countTitle_reverse]
          show countTitle (c :: acc) t ≤ 2
          by_cases hct : c.document_title = t
          · subst hct
            rw [countTitle_cons_self, H1]
            omega
          · rw [countTitle_cons_ne _ _ _ hct, H1]
            have h2t : lookupCount counts t ≤ maxPerDocument := H2 t
            simp only [maxPerDocument] at h2t
            omega
        · apply ih
          · intro t'
            by_cases hct : c.document_title = t'
            · subst hct
              rw [countTitle_cons_self, lookupCount_setCount_self, H1]
            · rw [countTitle_cons_ne _ _ _ hct,
                lookupCount_setCount_ne _ _ _ _ (Ne.symm hct), H1]
          · intro t'
            by_cases hct : c.document_title = t'
            · subst hct
              rw [lookupCount_setCount_self]
              simp only [maxPerDocument]
              omega
            · rw [lookupCount_setCount_ne _ _ _ _ (Ne.symm hct)]
              exact H2 t'
      · exact ih seen counts acc H1 H2 t

/-- Invariant proof of the admission loop: admitted chunk identifiers are
recorded in `seen`, so the result never repeats one. -/
theorem admitLoop_nodup (limit : Nat) (pool : List Chunk) :
    ∀ (seen : List Str) (counts : List (Str × Nat)) (acc : List Chunk),
    (∀ a ∈ acc, a.chunk_id ∈ seen) →
    (acc.map Chunk.chunk_id).Nodup →
    ((admitLoop limit pool seen counts acc).map Chunk.chunk_id).Nodup := by
  induction pool with
  | nil =>
    intro seen counts acc H1 H2
    simp only [admitLoop, List.map_reverse, List.nodup_reverse]
    exact H2
  | cons c rest ih =>
    intro seen counts acc H1 H2
    simp only [admitLoop]
    split
    · exact ih seen counts acc H1 H2
    · rename_i hseen
      split
      · have hnotacc : c.chunk_id ∉ acc.map Chunk.chunk_id := by
          intro hmem
          rcases List.mem_map.mp hmem with ⟨a, ha, hid⟩
          exact hseen (hid ▸ H1 a ha)
        split
        · simp only [List.map_reverse, List.nodup_reverse, List.map_cons]
          exact List.Nodup.cons hnotacc H2
        · apply ih
          · intro a ha
            rcases List.mem_cons.mp ha with h | h
            · subst h; exact List.mem_cons_self _ _
            · exact List.mem_cons_of_mem _ (H1 a h)
          · simp only [List.map_cons]
            exact List.Nodup.cons hnotacc H2
      · exact ih seen counts acc H1 H2

/-- The admission loop never discards what it has already admitted. -/
theorem admitLoop_length_ge (limit : Nat) (pool : List Chunk) :
    ∀ (seen : List Str) (counts : List (Str × Nat)) (acc : List Chunk),
    acc.length ≤ (admitLoop limit pool seen counts acc).length := by
  induction pool with
  | nil => intro seen counts acc; simp [admitLoop]
  | cons c rest ih =>
    intro seen counts acc
    simp only [admitLoop]
    split
    · exact ih seen counts acc
    · split
      · split
        · simp
        · exact le_trans (by simp) (ih _ _ (c :: acc))
      · exact ih seen counts acc

theorem insDesc_length (c : Chunk) (l : List Chunk) :
    (insDesc c l).length = l.length + 1 := by
  induction l with
  | nil => rfl
  | cons d r ih =>
    simp only [insDesc]
    split
    · simp
    · simp [ih]

theorem sortDesc_length (l : List Chunk) : (sortDesc l).length = l.length := by
  suffices h : ∀ init : List Chunk,
      (l.foldl (fun s c => insDesc c s) init).length = init.length + l.length by
    simpa using h []
  induction l with
  | nil => intro init; simp
  | cons c r ih =>
    intro init
    simp only [List.foldl_cons, ih, insDesc_length, List.length_cons]
    omega

/-- A non-empty candidate pool always yields a non-empty merged result:
the first sorted candidate is admitted unconditionally. -/
theorem mergeResults_ne_nil (limit : Nat) (l : List Chunk) (h : l ≠ []) :
    mergeResults limit l ≠ [] := by
  have hlen : (sortDesc l).length = l.length := sortDesc_length l
  have hpos : 0 < (sortDesc l).length := by
    rw [hlen]
    exact List.length_pos.mpr h
  rcases hsd : sortDesc l with _ | ⟨c, rest⟩
  · rw [hsd] at hpos; simp at hpos
  · apply List.ne_nil_of_length_pos
    unfold mergeResults
    rw [hsd]
    simp only [admitLoop, List.not_mem_nil, if_false]
    have h0 : lookupCount [] c.document_title = 0 := rfl
    simp only [h0, maxPerDocument, if_pos (by omega : (0:Nat) < 2)]
    split
    · simp
    · exact lt_of_lt_of_le (by simp) (admitLoop_length_ge _ _ _ _ _)

theorem mem_dedupFirstAux [DecidableEq α] (x : α) :
    ∀ (l : List α) (seen : List α),
    x ∈ dedupFirstAux seen l ↔ x ∈ l ∧ x ∉ seen := by
  intro l
  induction l with
  | nil => intro seen; simp [dedupFirstAux]
  | cons y r ih =>
    intro seen
    by_cases hy : y ∈ seen
    · simp only [dedupFirstAux, if_pos hy, ih]
      constructor
      · rintro ⟨hr, hs⟩; exact ⟨List.mem_cons_of_mem _ hr, hs⟩
      · rintro ⟨hyr, hs⟩
        rcases List.mem_cons.mp hyr with h | h
        · exact absurd (h ▸ hy) hs
        · exact ⟨h, hs⟩
    · simp only [dedupFirstAux, if_neg hy, List.mem_cons, ih]
      constructor
      · rintro (h | ⟨hr, hs⟩)
        · exact ⟨Or.inl h, h ▸ hy⟩
        · refine ⟨Or.inr hr, fun hx => hs ?_⟩
          simp [hx]
      · rintro ⟨h | h, hs⟩
        · exact Or.inl h
        · by_cases hxy : x = y
          · exact Or.inl hxy
          · exact Or.inr ⟨h, by simp [hxy, hs]⟩

theorem mem_dedupFirst [DecidableEq α] (x : α) (l : List α) :
    x ∈ dedupFirst l ↔ x ∈ l := by
  simp [dedupFirst, mem_dedupFirstAux]

theorem mem_cond_singleton {b : Bool} {x y : Str} :
    x ∈ (if b then [y] else []) ↔ b = true ∧ x = y := by
  cases b <;> simp

/-- Every member of a joined list occurs inside the join. -/
theorem contained_joinSep_of_mem (sep : Str) :
    ∀ (l : List Str) (x : Str), x ∈ l → Contained x (joinSep sep l) := by
  intro l
  induction l with
  | nil => intro x hx; simp at hx
  | cons y rest ih =>
    intro x hx
    rcases List.mem_cons.mp hx with h | h
    · subst h
      cases rest with
      | nil => exact ⟨[], [], by simp [joinSep]⟩
      | cons z r => exact ⟨[], sep ++ joinSep sep (z :: r), by simp [joinSep]⟩
    · have hne : rest ≠ [] := List.ne_nil_of_mem h
      rcases hrest : rest with _ | ⟨z, r⟩
      · exact absurd hrest hne
      · rcases ih x (hrest ▸ h) with ⟨p, q, hpq⟩
        refine ⟨y ++ sep ++ p, q, ?_⟩
        simp [joinSep, hrest ▸ hpq, List.append_assoc]

/-! ## String lemmas for the fact-extraction family theorem -/

theorem startsW_append_self : ∀ (pat t : Str), startsW pat (pat ++ t) = true
  | [], _ => rfl
  | p :: ps, t => by simp [startsW, startsW_append_self ps t]

theorem startsW_extend : ∀ (pat s b : Str), startsW pat s = true →
    startsW pat (s ++ b) = true
  | [], _, _, _ => rfl
  | p :: ps, [], b, h => by simp [startsW] at h
  | p :: ps, c :: cs, b, h => by
    simp only [startsW, Bool.and_eq_true] at h
    simp [startsW, h.1, startsW_extend ps cs b h.2]

theorem hasSub_self_append (b t : Str) : hasSub (b ++ t) b = true := by
  cases b with
  | nil => cases t <;> simp [hasSub, startsW]
  | cons bc br =>
    show hasSub (bc :: (br ++ t)) (bc :: br) = true
    simp only [hasSub, Bool.or_eq_true]
    left
    exact startsW_append_self (bc :: br) t

theorem hasSub_append_left : ∀ (a t pat : Str), hasSub t pat = true →
    hasSub (a ++ t) pat = true
  | [], _, _, h => h
  | c :: a', t, pat, h => by
    show hasSub (c :: (a' ++ t)) pat = true
    simp only [hasSub, Bool.or_eq_true]
    right
    exact hasSub_append_left a' t pat h

/-- A pattern occurring in the middle of a concatenation is found. -/
theorem hasSub_mid (a b t : Str) : hasSub (a ++ (b ++ t)) b = true :=
  hasSub_append_left a _ _ (hasSub_self_append b t)

theorem hasSub_append_right : ∀ (a b pat : Str), hasSub a pat = true →
    hasSub (a ++ b) pat = true
  | [], b, pat, h => by
    cases pat with
    | nil => cases b <;> simp [hasSub, startsW]
    | cons pc pr => simp [hasSub, startsW] at h
  | c :: a', b, pat, h => by
    show hasSub (c :: (a' ++ b)) pat = true
    simp only [hasSub, Bool.or_eq_true] at h ⊢
    rcases h with h | h
    · exact Or.inl (startsW_extend pat (c :: a') b h)
    · exact Or.inr (hasSub_append_right a' b pat h)

theorem takeWhile_cons_pos (p : Char → Bool) (c : Char) (l : Str) (h : p c = true) :
    (c :: l).takeWhile p = c :: l.takeWhile p := by
  simp [List.takeWhile_cons, h]

theorem takeWhile_cons_neg (p : Char → Bool) (c : Char) (l : Str) (h : p c = false) :
    (c :: l).takeWhile p = [] := by
  simp [List.takeWhile_cons, h]

theorem takeWhile_append_all (p : Char → Bool) :
    ∀ (a b : Str), (∀ c ∈ a, p c = true) →
    (a ++ b).takeWhile p = a ++ b.takeWhile p
  | [], b, _ => rfl
  | c :: a', b, h => by
    have hc : p c = true := h c (List.mem_cons_self c a')
    show ((c :: (a' ++ b)).takeWhile p) = c :: (a' ++ b.takeWhile p)
    rw [takeWhile_cons_pos p c _ hc,
      takeWhile_append_all p a' b (fun d hd => h d (List.mem_cons_of_mem c hd))]

theorem take_len_append : ∀ (a b : Str) (n : Nat),
    (a ++ b).take (a.length + n) = a ++ b.take n
  | [], b, n => by simp
  | c :: a', b, n => by
    have harr : (c :: a').length + n = (a'.length + n) + 1 := by
      simp [List.length_cons]
      omega
    rw [harr]
    show (c :: (a' ++ b)).take ((a'.length + n) + 1) = c :: (a' ++ b.take n)
    rw [List.take_succ_cons, take_len_append a' b n]

theorem take_takeWhile_len (p : Char → Bool) :
    ∀ (s : Str), s.take (s.takeWhile p).length = s.takeWhile p
  | [] => rfl
  | c :: r => by
    cases hp : p c with
    | true =>
      rw [takeWhile_cons_pos p c r hp]
      simp only [List.length_cons, List.take_succ_cons]
      rw [take_takeWhile_len p r]
    | false =>
      rw [takeWhile_cons_neg p c r hp]
      simp

theorem dropWhile_cons_neg (p : Char → Bool) (c : Char) (l : Str) (h : p c = false) :
    (c :: l).dropWhile p = c :: l := by
  simp [List.dropWhile_cons, h]

theorem dropWhile_append_cons_neg (p : Char → Bool) :
    ∀ (a : Str) (c : Char) (t : Str), p c = false →
    (a ++ c :: t).dropWhile p = a.dropWhile p ++ c :: t
  | [], c, t, hc => by simp [dropWhile_cons_neg p c t hc]
  | x :: a', c, t, hc => by
    cases hx : p x with
    | true =>
      show ((x :: (a' ++ c :: t)).dropWhile p) = ((x :: a').dropWhile p) ++ c :: t
      simp only [List.dropWhile_cons, hx, if_true]
      exact dropWhile_append_cons_neg p a' c t hc
    | false =>
      show ((x :: (a' ++ c :: t)).dropWhile p) = ((x :: a').dropWhile p) ++ c :: t
      rw [dropWhile_cons_neg p x _ hx, dropWhile_cons_neg p x a' hx]
      simp

/-- Trailing cleanup keeps a left part whose last character survives. -/
theorem dropTrailing_append (p : Char → Bool) (l m : Str) (c : Char) (t : Str)
    (hl : l.reverse = c :: t) (hc : p c = false) :
    dropTrailing p (l ++ m) = l ++ dropTrailing p m := by
  unfold dropTrailing
  rw [List.reverse_append, hl, dropWhile_append_cons_neg p m.reverse c t hc,
    List.reverse_append, ← hl, List.reverse_reverse]

/-- Trailing cleanup removes only a suffix. -/
theorem dropTrailing_decomp (p : Char → Bool) (l : Str) :
    ∃ r, l = dropTrailing p l ++ r := by
  refine ⟨(l.reverse.takeWhile p).reverse, ?_⟩
  unfold dropTrailing
  rw [← List.reverse_append, List.takeWhile_append_dropWhile, List.reverse_reverse]

/-! ## Matcher evaluation lemmas -/

theorem mSeq_eval (a b : M) (s : Str) (k j : Nat)
    (ha : a s = some k) (hb : b (s.drop k) = some j) :
    mSeq a b s = some (k + j) := by
  simp [mSeq, ha, hb]

theorem mPlus_eval (p : Char → Bool) (s : Str) (h : (s.takeWhile p).length ≠ 0) :
    mPlus p s = some (s.takeWhile p).length := by
  simp [mPlus, h]

theorem mLit_eval (pat s : Str) (h : startsW pat s = true) :
    mLit pat s = some pat.length := by
  simp [mLit, h]

theorem mOpt_of_none (a : M) (s : Str) (h : a s = none) : mOpt a s = some 0 := by
  simp [mOpt, h]

theorem pStat1_none_of_nondigit (c : Char) (t : Str) (hc : c.isDigit = false) :
    pStat1 (c :: t) = none := by
  have h0 : ((c :: t).takeWhile Char.isDigit).length = 0 := by
    rw [takeWhile_cons_neg _ _ _ hc]
    rfl
  simp [pStat1, mSeq, mPlus, h0]

/-- Scanning past a digit-free prefix reaches the rest untouched. -/
theorem scanAllF_skip (fuel : Nat) :
    ∀ (p rest : Str), (∀ c ∈ p, c.isDigit = false) →
    scanAllF pStat1 (p.length + fuel) (p ++ rest) = scanAllF pStat1 fuel rest
  | [], rest, _ => by simp
  | c :: p', rest, h => by
    have hc : c.isDigit = false := h c (List.mem_cons_self c p')
    have harr : (c :: p').length + fuel = (p'.length + fuel) + 1 := by
      simp [List.length_cons]
      omega
    rw [harr]
    show scanAllF pStat1 ((p'.length + fuel) + 1) (c :: (p' ++ rest)) = _
    simp only [scanAllF, pStat1_none_of_nondigit c _ hc]
    exact scanAllF_skip fuel p' rest (fun d hd => h d (List.mem_cons_of_mem c hd))

/-! ## Behaviour of the percentage pattern on the scenario span -/

theorem statSpan_length : statSpan.length = 32 := by decide

/-- The percentage pattern anchored at the span consumes the span and the
dot-free run of the suffix. -/
theorem pStat1_statSpan (s : Str) :
    pStat1 (statSpan ++ s) = some (32 + (s.takeWhile nonDot).length) := by
  have hTd : (statSpan ++ s).takeWhile Char.isDigit = ['3', '4'] := by
    show (('3' : Char) :: '4' :: '%' :: (spanRest ++ s)).takeWhile Char.isDigit = _
    rw [takeWhile_cons_pos _ _ _ (by decide), takeWhile_cons_pos _ _ _ (by decide),
      takeWhile_cons_neg _ _ _ (by decide)]
  have hk1 : mPlus Char.isDigit (statSpan ++ s) = some 2 := by
    have h := mPlus_eval Char.isDigit (statSpan ++ s) (by rw [hTd]; decide)
    rw [hTd] at h
    exact h
  have hfrac : mFrac ('%' :: (spanRest ++ s)) = some 0 := by
    apply mOpt_of_none
    simp [mSeq, mLit, startsW]
  have hpct : mLit "%".data ('%' :: (spanRest ++ s)) = some 1 := by
    have h := mLit_eval "%".data ('%' :: (spanRest ++ s)) (by simp [startsW])
    exact h
  have hmany : mMany nonDot (spanRest ++ s) = some (29 + (s.takeWhile nonDot).length) := by
    show some ((spanRest ++ s).takeWhile nonDot).length = _
    rw [takeWhile_append_all nonDot spanRest s (by decide), List.length_append,
      show spanRest.length = 29 from by decide]
  have hCD : mSeq (mLit "%".data) (mMany nonDot) ('%' :: (spanRest ++ s)) =
      some (1 + (29 + (s.takeWhile nonDot).length)) :=
    mSeq_eval _ _ _ _ _ hpct hmany
  have hBCD : mSeq mFrac (mSeq (mLit "%".data) (mMany nonDot)) ('%' :: (spanRest ++ s)) =
      some (0 + (1 + (29 + (s.takeWhile nonDot).length))) :=
    mSeq_eval _ _ _ _ _ hfrac hCD
  have hall : pStat1 (statSpan ++ s) =
      some (2 + (0 + (1 + (29 + (s.takeWhile nonDot).length)))) :=
    mSeq_eval _ _ _ _ _ hk1 hBCD
  rw [hall]
  congr 1
  omega

/-- First match of the global scan over a digit-free prefix, the span and
an arbitrary suffix. -/
theorem scanAll_statSpan (p s : Str) (hp : ∀ c ∈ p, c.isDigit = false) :
    ∃ tail, scanAll pStat1 (p ++ (statSpan ++ s)) =
      (statSpan ++ s.takeWhile nonDot) :: tail := by
  unfold scanAll
  rw [List.length_append, scanAllF_skip _ p (statSpan ++ s) hp]
  have efuel : (statSpan ++ s).length = (31 + s.length) + 1 := by
    rw [List.length_append, statSpan_length]
    omega
  rw [efuel]
  have hmatch : pStat1 ('3' :: '4' :: '%' :: (spanRest ++ s)) =
      some (32 + (s.takeWhile nonDot).length) := pStat1_statSpan s
  show ∃ tail, scanAllF pStat1 ((31 + s.length) + 1) ('3' :: '4' :: '%' :: (spanRest ++ s)) =
    (statSpan ++ s.takeWhile nonDot) :: tail
  simp only [scanAllF, hmatch]
  have htake : ('3' :: '4' :: '%' :: (spanRest ++ s)).take (32 + (s.takeWhile nonDot).length) =
      statSpan ++ s.takeWhile nonDot := by
    have h1 : ('3' :: '4' :: '%' :: (spanRest ++ s)) = statSpan ++ s := rfl
    rw [h1, show (32 : Nat) + (s.takeWhile nonDot).length =
        statSpan.length + (s.takeWhile nonDot).length from by rw [statSpan_length],
      take_len_append, take_takeWhile_len]
  rw [htake]
  exact ⟨_, rfl⟩

/-- The stat-fact cleanup keeps the span and trims only the suffix. -/
theorem cleanup_statSpan (s1 : Str) :
    ∃ s2 r, stripNonWord (trimStr (statSpan ++ s1)) = statSpan ++ s2 ∧ s1 = s2 ++ r := by
  obtain ⟨t0, ht0⟩ : ∃ t, statSpan.reverse = 's' :: t := ⟨_, rfl⟩
  have htrim : trimStr (statSpan ++ s1) = statSpan ++ dropTrailing isWS s1 := by
    unfold trimStr
    rw [show (statSpan ++ s1).dropWhile isWS = statSpan ++ s1 from by
        show (('3' : Char) :: ('4' :: '%' :: spanRest) ++ s1).dropWhile isWS = _
        exact dropWhile_cons_neg _ _ _ (by decide)]
    exact dropTrailing_append isWS statSpan s1 's' t0 ht0 (by decide)
  have hstrip : stripNonWord (statSpan ++ dropTrailing isWS s1) =
      statSpan ++ dropTrailing (fun c => !(isWordChar c)) (dropTrailing isWS s1) := by
    unfold stripNonWord
    rw [show (statSpan ++ dropTrailing isWS s1).dropWhile (fun c => !(isWordChar c)) =
        statSpan ++ dropTrailing isWS s1 from by
        show (('3' : Char) :: ('4' :: '%' :: spanRest) ++ dropTrailing isWS s1).dropWhile
          (fun c => !(isWordChar c)) = _
        exact dropWhile_cons_neg _ _ _ (by decide)]
    exact dropTrailing_append _ statSpan _ 's' t0 ht0 (by decide)
  obtain ⟨r2, hr2⟩ := dropTrailing_decomp (fun c => !(isWordChar c)) (dropTrailing isWS s1)
  obtain ⟨r1, hr1⟩ := dropTrailing_decomp isWS s1
  refine ⟨dropTrailing (fun c => !(isWordChar c)) (dropTrailing isWS s1), r2 ++ r1, ?_, ?_⟩
  · rw [htrim, hstrip]
  · rw [← List.append_assoc, ← hr2, ← hr1]

theorem lowerStr_append (a b : Str) : lowerStr (a ++ b) = lowerStr a ++ lowerStr b := by
  unfold lowerStr
  exact List.map_append _ a b

theorem lowerStr_statSpan_append (s2 : Str) :
    lowerStr (statSpan ++ s2) = statSpan ++ lowerStr s2 := by
  rw [lowerStr_append, show lowerStr statSpan = statSpan from by decide]

/-- For a cleaned statistical match of the scenario shape, `statistics`
survives the 4-tag cap as long as the suffix does not add two further
content tags ahead of it. -/
theorem statistics_mem_tags (s2 : Str)
    (hstud : hasSub (lowerStr (statSpan ++ s2)) "student".data = false)
    (hprog : hasSub (lowerStr (statSpan ++ s2)) "program".data = false)
    (hmill : hasSub (lowerStr (statSpan ++ s2)) "million".data = false) :
    "statistics".data ∈ extractTagsFromContent (statSpan ++ s2) q8 := by
  have hcompl : hasSub (lowerStr (statSpan ++ s2)) "completion".data = true := by
    rw [lowerStr_statSpan_append, show statSpan ++ lowerStr s2 =
      "34% increase in ".data ++ ("completion".data ++ (" rates".data ++ lowerStr s2))
      from rfl]
    exact hasSub_mid _ _ _
  have hpct : hasSub (lowerStr (statSpan ++ s2)) "%".data = true := by
    rw [lowerStr_statSpan_append, show statSpan ++ lowerStr s2 =
      "34".data ++ ("%".data ++ (spanRest ++ lowerStr s2)) from rfl]
    exact hasSub_mid _ _ _
  have hq1 : hasSub (lowerStr q8) "impact".data = false := by decide
  have hq2 : hasSub (lowerStr q8) "education".data = false := by decide
  have hq3 : hasSub (lowerStr q8) "university".data = true := by decide
  have hq4 : hasSub (lowerStr q8) "student".data = false := by decide
  have n1 : ¬ ("completion-rates".data = "university".data) := by decide
  have n2 : ¬ ("statistics".data = "completion-rates".data) := by decide
  have n3 : ¬ ("statistics".data = "university".data) := by decide
  unfold extractTagsFromContent
  by_cases hu : hasSub (lowerStr (statSpan ++ s2)) "university".data = true
  · simp [hq1, hq2, hq3, hq4, hu, hcompl, hpct, hstud, hprog, hmill,
      dedupFirst, dedupFirstAux, n1, n2, n3]
  · have hu' : hasSub (lowerStr (statSpan ++ s2)) "university".data = false := by
      revert hu
      cases hasSub (lowerStr (statSpan ++ s2)) "university".data <;> simp
    simp [hq1, hq2, hq3, hq4, hu', hcompl, hpct, hstud, hprog, hmill,
      dedupFirst, dedupFirstAux, n1, n2, n3]

/-- When the percentage scan's first match cleans up to an in-bounds
content, that content heads the statistical fact list. -/
theorem statFacts_head (resp query m : Str) (tail : List Str)
    (hscan : scanAll pStat1 resp = m :: tail)
    (c2 : Str) (hclean : stripNonWord (trimStr m) = c2)
    (hgt : 10 < c2.length) (hlt : c2.length < 200) :
    ∃ rest, statFacts resp query =
      { content := c2
        confidence := (8 : ℚ)/10
        source_context := ("Statistical information from: \"".data) ++ query ++ ("\"".data)
        suggested_tags := extractTagsFromContent c2 query } :: rest := by
  unfold statFacts
  simp only [List.map_cons, List.map_nil, hscan, List.filterMap_cons, hclean]
  rw [decide_eq_true hgt, decide_eq_true hlt]
  simp only [Bool.and_self, if_true]
  exact ⟨_, rfl⟩

/-! ## Claim theorems -/

/-- C1: the claim says a document-scoped request over a document with 7
chunks and cap 5 returns exactly 5 chunks in ascending chunk-index
order.  The code disagrees: the per-document diversity cap of 2 is also
applied to the document-scoped arm, so only the first two chunks (in
ascending index order) survive the merge, although the document-scoped
query itself gathered five.  This contradicts both the spec and the
source's own comment that document-scoped search should "use all chunks
but still respect the limit", so the claim is recorded as a code bug and
this theorem evaluates the code at the failing input. -/
theorem docScoped_two_of_seven :
    (envDoc42.corpus.filter (fun c => c.document_id = "doc_42".data)).length = 7 ∧
    (docAdapter envDoc42 "doc_42".data 5).length = 5 ∧
    searchSimilarChunks envDoc42 5 "tell me about doc42".data
      (some "doc_42".data) [] = [dc 0, dc 1] := by
  decide

/-- C2 counterexample: a document-scoped request whose document has no
chunks makes every active adapter return empty, yet the merged result
set is empty — the fallback adapter is wired only into the
multi-document arm, so it never fires here even though the corpus is
non-empty. -/
theorem docScoped_empty_no_fallback :
    envOther.corpus ≠ [] ∧
    envOther.fallbackErr = false ∧
    docAdapter envOther "doc_42".data 5 = [] ∧
    searchSimilarChunks envOther 5 "any question".data (some "doc_42".data) [] = [] := by
  decide

/-- C2 (amended): for requests without a document scope, if the
theme-filtered, vector and direct-match adapters all fail or return
empty, the fallback adapter supplies a capped sample of the corpus and
the merged result set is non-empty (assuming the corpus is non-empty and
the fallback query itself succeeds).  Document-scoped requests bypass
the fallback entirely. -/
theorem fallback_guarantees_nonempty (env : SearchEnv) (limit : Nat) (query : Str)
    (themes : List Str)
    (hTheme : themeAdapter env themes = [])
    (hVec : vectorAdapter env = [])
    (hDir : directAdapter env query = [])
    (hFb : env.fallbackErr = false)
    (hCorpus : env.corpus ≠ []) :
    searchSimilarChunks env limit query none themes ≠ [] := by
  have hbase : baseResults env query themes = [] := by
    unfold baseResults
    rw [hDir]
    split
    · simp [hTheme]
    · simp [hVec]
  have hfb : fallbackAdapter env ≠ [] := by
    unfold fallbackAdapter
    rw [hFb]
    simp only [Bool.false_eq_true, if_false]
    rcases hc : env.corpus with _ | ⟨c, r⟩
    · exact absurd hc hCorpus
    · simp
  have hgather : gatherMulti env query themes = fallbackAdapter env := by
    unfold gatherMulti
    rw [hbase]
    simp
  show mergeResults limit (gatherMulti env query themes) ≠ []
  rw [hgather]
  exact mergeResults_ne_nil limit _ hfb

/-- Witness for the amended C2 theorem at a concrete environment. -/
theorem fallback_guarantees_nonempty_witness :
    searchSimilarChunks envOther 5 "any question".data none [] ≠ [] := by
  apply fallback_guarantees_nonempty
  · decide
  · decide
  · decide
  · decide
  · decide

/-- C4 counterexample: a pool of five distinct usable chunks over three
documents (fewer than cap × distinctDocuments = 6), three of them from
`Doc A`, with requested count N = 5.  Reaching N = 5 would require `Doc
A` to contribute three results — i.e. exceeding the cap is strictly
necessary — yet the merger never exceeds the cap: it returns only four
results with `Doc A` capped at two.  So the claim's "the cap is exceeded
when … strictly necessary to reach N" direction is false. -/
theorem cap_not_exceeded_when_necessary :
    poolCap.length = 5 ∧
    (poolCap.map Chunk.chunk_id).Nodup ∧
    countTitle poolCap ("Doc A".data) = 3 ∧
    countTitle poolCap ("Doc B".data) = 1 ∧
    countTitle poolCap ("Doc C".data) = 1 ∧
    mergeResults 5 poolCap = [cA 1, cA 2, cB1, cC1] ∧
    countTitle (mergeResults 5 poolCap) ("Doc A".data) = 2 := by
  decide

/-- C4 (amended): no source document ever contributes more than the
configured per-document cap (2) to a merged result set — the cap is
never exceeded, not even when the candidate pool cannot otherwise supply
the requested count (the result set then simply stays short of N). -/
theorem mergeResults_respects_cap (limit : Nat) (pool : List Chunk) (t : Str) :
    countTitle (mergeResults limit pool) t ≤ maxPerDocument := by
  unfold mergeResults
  apply admitLoop_title_le
  · intro t'; rfl
  · intro t'
    simp [lookupCount, maxPerDocument]

/-- C5: no chunk identifier appears twice in any merged result set
produced by the candidate merger. -/
theorem mergeResults_nodup_ids (limit : Nat) (pool : List Chunk) :
    ((mergeResults limit pool).map Chunk.chunk_id).Nodup := by
  unfold mergeResults
  apply admitLoop_nodup
  · intro a ha
    simp at ha
  · simp

/-- C3 counterexample: the response produced when the embedding provider
call throws is the generic 500 `Internal server error` payload — byte
for byte the same payload produced when the answer-generation call
throws — so no distinct `EmbeddingFailure` error kind is surfaced.  (The
adapter-call component of the claim does hold: the second conjunct shows
no adapter runs on embedding failure, while the fourth shows the
identical payload arises after adapters did run.) -/
theorem embedding_failure_not_distinct :
    (POST reqHi envEmbedFail).1.errPayload = some ("Internal server error".data, 500) ∧
    (POST reqHi envEmbedFail).2 = false ∧
    (POST reqHi envGenFail).1.errPayload = some ("Internal server error".data, 500) ∧
    (POST reqHi envGenFail).2 = true := by
  decide

/-- C3 (amended): when the embedding provider call throws, the pipeline
terminates before any candidate source adapter is invoked, but the error
surfaced is the handler's generic 500 `Internal server error` — the same
payload as for any other fatal failure — not a distinct
`EmbeddingFailure` error kind. -/
theorem embedding_failure_generic_no_adapters (req : PostReq) (env : PostEnv)
    (hmsg : req.message ≠ [])
    (hembed : env.embedOk = false) :
    (POST req env).1.errPayload = some ("Internal server error".data, 500) ∧
    (POST req env).2 = false := by
  simp [POST, hmsg, hembed, PostOut.errPayload]

/-- Witness for the amended C3 theorem at a concrete request. -/
theorem embedding_failure_generic_no_adapters_witness :
    (POST reqHi envEmbedFail).1.errPayload = some ("Internal server error".data, 500) ∧
    (POST reqHi envEmbedFail).2 = false :=
  embedding_failure_generic_no_adapters reqHi envEmbedFail (by decide) (by decide)

/-- C6: on every successful generation, the citation list is the 1:1
projection — by chunk identifier, text, title and document locator — of
exactly the candidate chunks rendered into the system prompt sent to the
LLM, and each of those chunks occurs verbatim inside that prompt; no
other passage can appear among the citations. -/
theorem citations_project_prompt (query : Str) (chunks : List Chunk) (model : Str)
    (history : List ChatMessage) (enh : Option Enhancement) (env : GenEnv)
    (hOk : env.providerFails = false) :
    ∃ r, generateResponse query chunks model history enh env = Except.ok r ∧
      r.citations.map (fun ct => (ct.chunk_id, ct.text, ct.document_title, ct.source_url)) =
        chunks.map (fun c =>
          (c.chunk_id, c.content, c.document_title, ("/documents/".data) ++ c.document_id)) ∧
      r.promptSent = buildSystemPrompt chunks enh ∧
      ∀ c ∈ chunks, Contained (renderChunk c) r.promptSent := by
  simp only [generateResponse, hOk, Bool.false_eq_true, if_false]
  refine ⟨_, rfl, ?_, rfl, ?_⟩
  · simp [mkCitation]
  · intro c hc
    rcases contained_joinSep_of_mem "\n\n".data (chunks.map renderChunk) (renderChunk c)
      (List.mem_map_of_mem renderChunk hc) with ⟨p, q, hpq⟩
    refine ⟨promptHeader ++ p, q ++ enhancementBlock enh ++ promptInstr, ?_⟩
    simp [buildSystemPrompt, hpq, List.append_assoc]

/-- Witness for the C6 theorem at a concrete generation run. -/
theorem citations_project_prompt_witness :
    genEnvOk.providerFails = false ∧
    (∃ r, generateResponse "q".data [dc 0] "openai".data [] none genEnvOk = Except.ok r ∧
      r.citations.map (fun ct => (ct.chunk_id, ct.text, ct.document_title, ct.source_url)) =
        [dc 0].map (fun c =>
          (c.chunk_id, c.content, c.document_title, ("/documents/".data) ++ c.document_id)) ∧
      r.promptSent = buildSystemPrompt [dc 0] none ∧
      ∀ c ∈ [dc 0], Contained (renderChunk c) r.promptSent) :=
  ⟨rfl, citations_project_prompt "q".data [dc 0] "openai".data [] none genEnvOk rfl⟩

/-- C7: the fact extractor is deterministic — it is a pure function of
the answer text and query, so identical inputs give identical output —
and every output list has length at most 3 (the `slice(0, 3)` cap). -/
theorem extractor_deterministic_le_three (response query : Str) :
    extractFactsFromResponse response query = extractFactsFromResponse response query ∧
    (extractFactsFromResponse response query).length ≤ 3 := by
  refine ⟨rfl, ?_⟩
  unfold extractFactsFromResponse
  exact List.length_take_le _ _

set_option maxRecDepth 100000 in
set_option maxHeartbeats 1000000 in
/-- C8 counterexample: an answer that contains the span
`34% increase in completion rates` inside a dot-free run longer than 200
characters yields no extracted facts at all — the statistical match is
discarded by the `< 200` length filter and no other pattern fires — so
the claim does not hold for every answer containing the span. -/
theorem long_answer_no_fact :
    hasSub b8 ("34% increase in completion rates".data) = true ∧
    extractFactsFromResponse b8 q8 = [] := by
  decide

/-- C8 (amended): for the scenario query and every answer text of the
form `prefix ++ "34% increase in completion rates" ++ suffix` where the
prefix holds no digit (so the span's match is the scan's first), the
span's dot-free continuation keeps the match under the 200-character
fact length cap, and the suffix does not introduce the tag keywords
`student`, `program` or `million` (which would crowd `statistics` out of
the 4-tag cap), the fact extractor returns a fact whose content contains
`34%` and whose suggested tags include `statistics`. -/
theorem stat_fact_for_short_spans (p s : Str)
    (hp : ∀ c ∈ p, c.isDigit = false)
    (hlen : statSpan.length + (s.takeWhile nonDot).length < 200)
    (hstud : hasSub (lowerStr (statSpan ++ s)) "student".data = false)
    (hprog : hasSub (lowerStr (statSpan ++ s)) "program".data = false)
    (hmill : hasSub (lowerStr (statSpan ++ s)) "million".data = false) :
    ∃ f ∈ extractFactsFromResponse (p ++ (statSpan ++ s)) q8,
      hasSub f.content "34%".data = true ∧
      "statistics".data ∈ f.suggested_tags := by
  obtain ⟨tail, htail⟩ := scanAll_statSpan p s hp
  obtain ⟨s2, r, hclean, hs1r⟩ := cleanup_statSpan (s.takeWhile nonDot)
  have hdecomp : statSpan ++ s = (statSpan ++ s2) ++ (r ++ s.dropWhile nonDot) := by
    conv_lhs => rw [← List.takeWhile_append_dropWhile (p := nonDot) (l := s)]
    rw [hs1r]
    simp [List.append_assoc]
  have htrans : ∀ pat : Str, hasSub (lowerStr (statSpan ++ s)) pat = false →
      hasSub (lowerStr (statSpan ++ s2)) pat = false := by
    intro pat h
    cases hx : hasSub (lowerStr (statSpan ++ s2)) pat with
    | false => rfl
    | true =>
      exfalso
      have hin := hasSub_append_right _ (lowerStr (r ++ s.dropWhile nonDot)) pat hx
      rw [← lowerStr_append, ← hdecomp, h] at hin
      exact Bool.noConfusion hin
  have hstud' := htrans _ hstud
  have hprog' := htrans _ hprog
  have hmill' := htrans _ hmill
  have hs2le : s2.length ≤ (s.takeWhile nonDot).length := by
    rw [hs1r, List.length_append]
    omega
  have hgt : 10 < (statSpan ++ s2).length := by
    rw [List.length_append, statSpan_length]
    omega
  have hlt : (statSpan ++ s2).length < 200 := by
    rw [List.length_append, statSpan_length]
    rw [statSpan_length] at hlen
    omega
  obtain ⟨rest1, h1⟩ :=
    statFacts_head (p ++ (statSpan ++ s)) q8 _ tail htail (statSpan ++ s2) hclean hgt hlt
  have hfacts : ∃ rest2, extractFactsFromResponse (p ++ (statSpan ++ s)) q8 =
      { content := statSpan ++ s2
        confidence := (8 : ℚ)/10
        source_context := ("Statistical information from: \"".data) ++ q8 ++ ("\"".data)
        suggested_tags := extractTagsFromContent (statSpan ++ s2) q8 } :: rest2 := by
    unfold extractFactsFromResponse
    rw [h1]
    simp only [List.cons_append]
    unfold dedupFacts
    simp only [dedupFactsAux, List.not_mem_nil, if_false]
    exact ⟨_, rfl⟩
  obtain ⟨rest2, h2⟩ := hfacts
  refine ⟨{ content := statSpan ++ s2
            confidence := (8 : ℚ)/10
            source_context := ("Statistical information from: \"".data) ++ q8 ++ ("\"".data)
            suggested_tags := extractTagsFromContent (statSpan ++ s2) q8 }, ?_, ?_, ?_⟩
  · rw [h2]
    exact List.mem_cons_self _ _
  · show hasSub (statSpan ++ s2) "34%".data = true
    rw [show statSpan ++ s2 = "34%".data ++ (spanRest ++ s2) from rfl]
    rw [← List.append_assoc]
    exact hasSub_append_right _ _ _ (hasSub_self_append "34%".data spanRest)
  · exact statistics_mem_tags s2 hstud' hprog' hmill'

/-- Witness for the amended C8 theorem at the concrete answer
`Studies show a 34% increase in completion rates for mentees.` -/
theorem stat_fact_for_short_spans_witness :
    ∃ f ∈ extractFactsFromResponse
        ("Studies show a ".data ++ (statSpan ++ " for mentees.".data)) q8,
      hasSub f.content "34%".data = true ∧
      "statistics".data ∈ f.suggested_tags :=
  stat_fact_for_short_spans "Studies show a ".data " for mentees.".data
    (by decide) (by decide) (by decide) (by decide) (by decide)

/-- C9: a query mentioning "hoodie" and "economics" (and not
"relational", see the counterexample) matches the concept
`Hoodie Economics`; the related-concept list then contains
`Community-Centered Economics` and never contains any already-matched
concept. -/
theorem concept_enhancer_hoodie (q : Str)
    (h1 : hasSub (lowerStr q) "hoodie".data = true)
    (h2 : hasSub (lowerStr q) "economics".data = true)
    (h3 : hasSub (lowerStr q) "relational".data = false) :
    "Hoodie Economics".data ∈ findQueryConcepts q ∧
    "Community-Centered Economics".data ∈ findRelatedConcepts (findQueryConcepts q) ∧
    ∀ c ∈ findRelatedConcepts (findQueryConcepts q), c ∉ findQueryConcepts q := by
  have hHE : ("Hoodie Economics".data : Str) ∈ findQueryConcepts q := by
    simp [findQueryConcepts, h1]
  have hCCEnot : ("Community-Centered Economics".data : Str) ∉ findQueryConcepts q := by
    intro hmem
    unfold findQueryConcepts at hmem
    rcases List.mem_append.mp hmem with hmem5 | h6
    · rcases List.mem_append.mp hmem5 with hmem4 | h5
      · rcases List.mem_append.mp hmem4 with hmem3 | h4
        · rcases List.mem_append.mp hmem3 with hmem2 | h3'
          · rcases List.mem_append.mp hmem2 with h1' | h2'
            · exact absurd (mem_cond_singleton.mp h1').2 (by decide)
            · have hb := (mem_cond_singleton.mp h2').1
              rw [h3] at hb
              exact absurd hb (by decide)
          · exact absurd (mem_cond_singleton.mp h3').2 (by decide)
        · exact absurd (mem_cond_singleton.mp h4).2 (by decide)
      · exact absurd (mem_cond_singleton.mp h5).2 (by decide)
    · exact absurd (mem_cond_singleton.mp h6).2 (by decide)
  refine ⟨hHE, ?_, ?_⟩
  · unfold findRelatedConcepts
    rw [List.mem_filter]
    constructor
    · rw [mem_dedupFirst]
      apply List.mem_flatten.mpr
      exact ⟨relatedTable "Hoodie Economics".data,
        List.mem_map_of_mem relatedTable hHE, by decide⟩
    · simp [hCCEnot]
  · intro c hc
    unfold findRelatedConcepts at hc
    rw [List.mem_filter] at hc
    simpa using hc.2

/-- Witness for the C9 theorem at the concrete query `hoodie economics`. -/
theorem concept_enhancer_hoodie_witness :
    hasSub (lowerStr "hoodie economics".data) "hoodie".data = true ∧
    hasSub (lowerStr "hoodie economics".data) "economics".data = true ∧
    hasSub (lowerStr "hoodie economics".data) "relational".data = false ∧
    ("Hoodie Economics".data ∈ findQueryConcepts "hoodie economics".data ∧
     "Community-Centered Economics".data ∈
       findRelatedConcepts (findQueryConcepts "hoodie economics".data) ∧
     ∀ c ∈ findRelatedConcepts (findQueryConcepts "hoodie economics".data),
       c ∉ findQueryConcepts "hoodie economics".data) :=
  ⟨by decide, by decide, by decide,
    concept_enhancer_hoodie "hoodie economics".data (by decide) (by decide) (by decide)⟩

/-- C9 counterexample: when the query also contains "relational" — e.g.
`relational hoodie economics` — the concept
`Community-Centered Economics` is itself matched, and the exclusion of
already-matched concepts removes it from the related list, so the
claim's "related concepts include Community-Centered Economics for every
hoodie-economics query" fails. -/
theorem concept_enhancer_relational_counterexample :
    hasSub (lowerStr "relational hoodie economics".data) "hoodie".data = true ∧
    hasSub (lowerStr "relational hoodie economics".data) "economics".data = true ∧
    "Community-Centered Economics".data ∉
      findRelatedConcepts (findQueryConcepts "relational hoodie economics".data) := by
  decide

/-- C10: the `model_used` field of a successful generation always echoes
the caller's requested model string, and when the caller requests
`anthropic` with no Anthropic API key configured, the OpenAI provider is
the one actually invoked while `model_used` still reads `anthropic`. -/
theorem model_used_echoes_request (query : Str) (chunks : List Chunk)
    (model : Str) (history : List ChatMessage) (enh : Option Enhancement) (env : GenEnv)
    (hOk : env.providerFails = false) :
    ∃ r, generateResponse query chunks model history enh env = Except.ok r ∧
      r.model_used = model ∧
      (model = "anthropic".data → env.anthropicKey = false →
        r.provider = Provider.openaiP) := by
  simp only [generateResponse, hOk, Bool.false_eq_true, if_false]
  refine ⟨_, rfl, rfl, ?_⟩
  intro hm hk
  simp [hm, hk]

/-- Witness for the C10 theorem: requesting `anthropic` without a key. -/
theorem model_used_echoes_request_witness :
    genEnvOk.providerFails = false ∧
    (∃ r, generateResponse "q".data [] "anthropic".data [] none genEnvOk = Except.ok r ∧
      r.model_used = "anthropic".data ∧
      ("anthropic".data = "anthropic".data → genEnvOk.anthropicKey = false →
        r.provider = Provider.openaiP)) :=
  ⟨rfl, model_used_echoes_request "q".data [] "anthropic".data [] none genEnvOk rfl⟩

end AimeChat
